import Mathlib

/-!
Verification of the session-scoped calendar REST service (Node.js + PostgreSQL).

The storage layer (`src/db.js`) is modelled as pure functions over an explicit
store, a list of event rows standing for the `events` table. The HTTP handler
layer (`src/server.js`) is modelled as pure functions from a request input,
a fresh id, and the current time to a response together with the new store.
Timestamps are integers (milliseconds since the Unix epoch, matching the JS
`Date` value); string-to-date parsing of the JavaScript runtime is abstracted
as a function parameter `parseStr : String → Option Int` (`none` = the parse
produced an invalid date, i.e. `NaN`).
-/

namespace CalendarTool

/-- A row of the `events` table (see `initSchema` and `DbEventRow` in src/db.js).
`end` is a Lean keyword, so the column is written `end_`. -/
structure EventRow where
  id : String
  session_id : String
  title : String
  description : Option String
  location : Option String
  attendees : List String
  start : Int
  end_ : Int
  status : String
  created_at : Int
  updated_at : Int
deriving DecidableEq, Repr

/-- The `events` table contents. -/
abbrev Store := List EventRow

/-- The WHERE clause `session_id = $1 AND id = $2` shared by getEvent,
updateEvent and deleteEvent in src/db.js. -/
def rowMatches (sessionId eventId : String) (r : EventRow) : Bool :=
  r.session_id == sessionId && r.id == eventId

/-- `getEvent` (src/db.js lines 170-176): `SELECT * FROM events WHERE
session_id = $1 AND id = $2`, returning `rows[0] || null`. -/
def getEvent (sessionId eventId : String) (store : Store) : Option EventRow :=
  store.find? (rowMatches sessionId eventId)

/-- A value bound to one SQL parameter of the dynamic UPDATE statement:
a text column, a nullable text column, a text-array column, or a
timestamp column. -/
inductive ColVal where
  | vs (v : String)
  | vos (v : Option String)
  | varr (v : List String)
  | vt (v : Int)
deriving DecidableEq, Repr

/-- Effect of one `key = $n` SET clause on a row. The keys are the column
names interpolated into the SQL text by `updateEvent`; a key that names no
patchable column leaves the row unchanged. -/
def applyField (r : EventRow) : String × ColVal → EventRow
  | ("title", ColVal.vs v) => { r with title := v }
  | ("description", ColVal.vos v) => { r with description := v }
  | ("location", ColVal.vos v) => { r with location := v }
  | ("attendees", ColVal.varr v) => { r with attendees := v }
  | ("start", ColVal.vt v) => { r with start := v }
  | ("end", ColVal.vt v) => { r with end_ := v }
  | ("status", ColVal.vs v) => { r with status := v }
  | _ => r

/-- Effect of the full SET list of `updateEvent` on one row: every supplied
patch field in order, then the unconditional `updated_at = NOW()` clause
(src/db.js line 195), with `now` standing for `NOW()`. -/
def applyPatch (patch : List (String × ColVal)) (now : Int) (r : EventRow) : EventRow :=
  { patch.foldl applyField r with updated_at := now }

/-- `updateEvent` (src/db.js lines 186-200): dynamic
`UPDATE events SET ... WHERE session_id = $i AND id = $j RETURNING *`,
returning `rows[0] || null` and the updated table. -/
def updateEvent (sessionId eventId : String) (patch : List (String × ColVal))
    (now : Int) (store : Store) : Option EventRow × Store :=
  let store2 := store.map fun r =>
    if rowMatches sessionId eventId r then applyPatch patch now r else r
  (store2.find? (rowMatches sessionId eventId), store2)

/-- `deleteEvent` (src/db.js lines 208-214): `DELETE FROM events WHERE
session_id = $1 AND id = $2`, returning `rowCount > 0` and the new table. -/
def deleteEvent (sessionId eventId : String) (store : Store) : Bool × Store :=
  (store.any (rowMatches sessionId eventId),
   store.filter fun r => !rowMatches sessionId eventId r)

/-- The ORDER BY start ASC ordering used by `listEvents`. -/
def startLE (a b : EventRow) : Prop := a.start ≤ b.start

instance : DecidableRel startLE := fun a b => inferInstanceAs (Decidable (a.start ≤ b.start))

instance : IsTotal EventRow startLE := ⟨fun a b => Int.le_total a.start b.start⟩

instance : IsTrans EventRow startLE := ⟨fun _ _ _ => Int.le_trans⟩

/-- The optional range clauses of `listEvents` (src/db.js lines 152-153):
`"end" >= rangeStart` when a lower bound is given and `start <= rangeEnd`
when an upper bound is given. -/
def overlapPred (rangeStart rangeEnd : Option Int) (r : EventRow) : Bool :=
  (match rangeStart with
   | none => true
   | some a => decide (a ≤ r.end_)) &&
  (match rangeEnd with
   | none => true
   | some b => decide (r.start ≤ b))

/-- `listEvents` (src/db.js lines 140-162): rows of the session, filtered by
the overlap clauses when a bound is present, ordered by `start` ascending.
When both bounds are absent the source takes a separate branch with no range
clause; `overlapPred none none` is constantly true, so the single filter
covers both branches. -/
def listEvents (sessionId : String) (rangeStart rangeEnd : Option Int)
    (store : Store) : List EventRow :=
  List.insertionSort startLE
    (store.filter fun r => r.session_id == sessionId && overlapPred rangeStart rangeEnd r)

/-- `listSessions` (src/db.js lines 220-223): sorted distinct session ids. -/
def listSessions (store : Store) : List String :=
  List.insertionSort (· ≤ ·) (store.map EventRow.session_id).dedup

/-- The column names a patch may set, as fixed by the PATCH handler
(src/server.js lines 170-177): only these seven keys are ever copied into
the patch object handed to `updateEvent`. -/
def allowedPatchKeys : List String :=
  ["title", "description", "location", "attendees", "start", "end", "status"]

/-- The column names interpolated into the SQL text of `updateEvent`
(src/db.js lines 191-192: one `key = $n` per entry of the patch object). -/
def updateSqlKeys (patch : List (String × ColVal)) : List String :=
  patch.map Prod.fst

/-- The SET clause texts of the dynamic UPDATE statement (src/db.js lines
191-195): `key = $n` for the n-th patch entry, then `updated_at = NOW()`. -/
def sqlSetClauses (patch : List (String × ColVal)) : List String :=
  (patch.enum.map fun p => p.2.1 ++ " = $" ++ toString (p.1 + 1)) ++ ["updated_at = NOW()"]

/-- The full SQL text built by `updateEvent` (src/db.js line 197). -/
def updateSql (patch : List (String × ColVal)) : String :=
  "UPDATE events SET " ++ String.intercalate ", " (sqlSetClauses patch) ++
    " WHERE session_id = $" ++ toString (patch.length + 1) ++
    " AND id = $" ++ toString (patch.length + 2) ++ " RETURNING *"

/-- A JSON value supplied for a timestamp field of a PATCH body: either the
JSON literal `null` or a string. `new Date(null)` coerces `null` to the
number 0 and yields the Unix epoch, not an invalid date. -/
inductive JTime where
  | jnull
  | jstr (s : String)
deriving DecidableEq, Repr

/-- `toDate` (src/server.js lines 8-16): `new Date(value)` followed by the
`NaN` check. `null` coerces to 0 (the epoch); a string goes through the
date parsing of the runtime, abstracted as `parseStr`. `none` means the function
threw `INVALID_ARGUMENT`. -/
def toDate (parseStr : String → Option Int) : JTime → Option Int
  | JTime.jnull => some 0
  | JTime.jstr s => parseStr s

/-- JavaScript truthiness of an optional string field, as tested by
`!input.title || !input.start || !input.end` in the POST handler: an absent
field and the empty string are both falsy. -/
def jsTruthy : Option String → Bool
  | none => false
  | some s => s != ""

/-- A handler response: a successful JSON body carrying an event row, or an
error status with its message. -/
inductive HResp where
  | ok (status : Nat) (ev : EventRow)
  | err (status : Nat) (msg : String)
deriving DecidableEq, Repr

/-- The fields of a POST body read by the create handler (src/server.js
lines 100-126). `idField` records an `id` key the client may have sent;
the handler never reads it. For `description`, `location`, `attendees`
and `status` the handler applies `?? null` / `Array.isArray` / `?? default`
coercions, so absent and null collapse and a non-array `attendees`
collapses to absent; `none` covers all collapsed cases. -/
structure CreateInput where
  idField : Option String
  title : Option String
  start : Option String
  end_ : Option String
  description : Option String
  location : Option String
  attendees : Option (List String)
  status : Option String
deriving DecidableEq, Repr

/-- The POST /sessions/:sessionId/events handler (src/server.js lines
100-127): required-field check, `toDate` on start and end,
`validateEventTimes`, then insert of the freshly built event. `genId`
stands for `randomUUID()` and `now` for `new Date()`. -/
def postHandler (parseStr : String → Option Int) (sessionId : String)
    (input : CreateInput) (genId : String) (now : Int) (store : Store) :
    HResp × Store :=
  if !(jsTruthy input.title && jsTruthy input.start && jsTruthy input.end_) then
    (HResp.err 400 "Missing required fields: title, start, end", store)
  else
    match parseStr (input.start.getD "") with
    | none => (HResp.err 400 "Invalid start; expected ISO 8601 string.", store)
    | some s =>
      match parseStr (input.end_.getD "") with
      | none => (HResp.err 400 "Invalid end; expected ISO 8601 string.", store)
      | some e =>
        if e ≤ s then (HResp.err 400 "\x27end\x27 must be after \x27start\x27.", store)
        else
          let ev : EventRow :=
            { id := genId
              session_id := sessionId
              title := input.title.getD ""
              description := input.description
              location := input.location
              attendees := input.attendees.getD []
              start := s
              end_ := e
              status := input.status.getD "confirmed"
              created_at := now
              updated_at := now }
          (HResp.ok 201 ev, store ++ [ev])

/-- The fields of a PATCH body read by the update handler (src/server.js
lines 159-165). The outer `Option` is key presence (`undefined` vs present).
For `description` and `location` the inner `Option` distinguishes an
explicit `null` (`some none`) from a string. For `attendees` the inner
`Option` is `Array.isArray`: `some none` is a present non-array value,
coerced to `[]`. `start` and `end` accept `null` or a string (`JTime`). -/
structure PatchInput where
  title : Option String
  description : Option (Option String)
  location : Option (Option String)
  attendees : Option (Option (List String))
  start : Option JTime
  end_ : Option JTime
  status : Option String
deriving DecidableEq, Repr

/-- The `Array.isArray(input.attendees) ? input.attendees : []` coercion. -/
def mergeAtt : Option (List String) → List String
  | none => []
  | some l => l

/-- The effective post-merge start (src/server.js line 163 merged into
line 168): the converted body value when `start` is present, otherwise the
stored value. -/
def effStart (parseStr : String → Option Int) (existing : EventRow)
    (input : PatchInput) : Option Int :=
  match input.start with
  | none => some existing.start
  | some t => toDate parseStr t

/-- The effective post-merge end (src/server.js line 164 merged into
line 168). -/
def effEnd (parseStr : String → Option Int) (existing : EventRow)
    (input : PatchInput) : Option Int :=
  match input.end_ with
  | none => some existing.end_
  | some t => toDate parseStr t

/-- The patch object built by the PATCH handler (src/server.js lines
170-177): one entry per body key that is present, carrying the merged
value; `ns`/`ne` are the converted start/end values. -/
def buildPatch (input : PatchInput) (ns ne : Int) : List (String × ColVal) :=
  (match input.title with
   | none => [] | some v => [("title", ColVal.vs v)]) ++
  (match input.description with
   | none => [] | some v => [("description", ColVal.vos v)]) ++
  (match input.location with
   | none => [] | some v => [("location", ColVal.vos v)]) ++
  (match input.attendees with
   | none => [] | some a => [("attendees", ColVal.varr (mergeAtt a))]) ++
  (match input.start with
   | none => [] | some _ => [("start", ColVal.vt ns)]) ++
  (match input.end_ with
   | none => [] | some _ => [("end", ColVal.vt ne)]) ++
  (match input.status with
   | none => [] | some v => [("status", ColVal.vs v)])

/-- The PATCH /sessions/:sessionId/events/:eventId handler (src/server.js
lines 153-181): fetch the existing row (404 when absent), merge and convert
`start`/`end` in source order, `validateEventTimes` on the effective pair,
then `updateEvent` with the patch object. A `null` return from `updateEvent`
would make `serializeEvent` throw, caught as a 500. -/
def patchHandler (parseStr : String → Option Int) (sessionId eventId : String)
    (input : PatchInput) (now : Int) (store : Store) : HResp × Store :=
  match getEvent sessionId eventId store with
  | none => (HResp.err 404 "Event not found", store)
  | some existing =>
    match effStart parseStr existing input with
    | none => (HResp.err 400 "Invalid start; expected ISO 8601 string.", store)
    | some ns =>
      match effEnd parseStr existing input with
      | none => (HResp.err 400 "Invalid end; expected ISO 8601 string.", store)
      | some ne =>
        if ne ≤ ns then
          (HResp.err 400 "\x27end\x27 must be after \x27start\x27.", store)
        else
          let result := updateEvent sessionId eventId (buildPatch input ns ne) now store
          match result.1 with
          | some updated => (HResp.ok 200 updated, result.2)
          | none => (HResp.err 500 "Server Error", result.2)

/-- `readJson` (src/server.js lines 55-64): an empty body yields `{}`
without touching `JSON.parse`; a non-empty body is parsed, and a parse
failure throws `INVALID_JSON`. `JSON.parse` of the runtime is abstracted as
`parse`, and `empty` is the handler-level reading of the empty object. -/
def readJson {α : Type} (parse : String → Option α) (empty : α)
    (body : String) : Except String α :=
  if body = "" then Except.ok empty
  else
    match parse body with
    | some v => Except.ok v
    | none => Except.error "Invalid JSON body"

/-- The PATCH body with no keys present: what an empty request body merges
to after `readJson` returns `{}`. -/
def emptyPatch : PatchInput :=
  { title := none, description := none, location := none, attendees := none,
    start := none, end_ := none, status := none }

/-- Primary-key uniqueness of `id` (the `id UUID PRIMARY KEY` constraint of
`initSchema`), an invariant the database enforces on every reachable store. -/
def UniqueIds (store : Store) : Prop :=
  store.Pairwise fun a b => a.id ≠ b.id

/-- The row the PATCH handler stores on success: every present body key
overrides the stored field, absent keys keep the stored value, `start`/`end`
become the effective converted pair, and `updated_at` becomes `now`. -/
def mergedRow (input : PatchInput) (old : EventRow) (ns ne now : Int) : EventRow :=
  { id := old.id
    session_id := old.session_id
    title := input.title.getD old.title
    description := input.description.getD old.description
    location := input.location.getD old.location
    attendees := match input.attendees with
      | none => old.attendees
      | some a => mergeAtt a
    start := ns
    end_ := ne
    status := input.status.getD old.status
    created_at := old.created_at
    updated_at := now }

/-- The event row inserted by a successful POST (src/server.js lines 112-124). -/
def createdEvent (sid : String) (input : CreateInput) (genId : String)
    (now : Int) (s e : Int) : EventRow :=
  { id := genId
    session_id := sid
    title := input.title.getD ""
    description := input.description
    location := input.location
    attendees := input.attendees.getD []
    start := s
    end_ := e
    status := input.status.getD "confirmed"
    created_at := now
    updated_at := now }

/-! ### Sample data used by the concrete examples and witnesses -/

/-- Event A of the range-filter example in the spec: 09:00-10:00 as minutes. -/
def rowA : EventRow :=
  { id := "a1", session_id := "S", title := "Call", description := none,
    location := none, attendees := [], start := 540, end_ := 600,
    status := "confirmed", created_at := 0, updated_at := 0 }

/-- Event B of the range-filter example in the spec: 11:00-12:00 as minutes. -/
def rowB : EventRow :=
  { id := "b1", session_id := "S", title := "Sync", description := none,
    location := none, attendees := [], start := 660, end_ := 720,
    status := "confirmed", created_at := 0, updated_at := 0 }

/-- A row of a different session carrying the same id as `rowA`. -/
def rowT : EventRow :=
  { id := "a1", session_id := "T", title := "Other", description := none,
    location := none, attendees := [], start := 540, end_ := 600,
    status := "confirmed", created_at := 0, updated_at := 0 }

/-- A concrete stand-in for the date parsing of the runtime, mapping two literals
to minute values and rejecting everything else. -/
def sampleParse : String → Option Int := fun s =>
  if s == "2025-01-10T09:00:00Z" then some 540
  else if s == "2025-01-10T10:00:00Z" then some 600
  else none

/-- A well-formed create body; the client also sends an `id`, which the
handler must ignore. -/
def ciGood : CreateInput :=
  { idField := some "client-chosen-id", title := some "Call",
    start := some "2025-01-10T09:00:00Z", end_ := some "2025-01-10T10:00:00Z",
    description := none, location := none, attendees := none, status := none }

/-- A create body whose end precedes its start. -/
def ciBad : CreateInput :=
  { idField := none, title := some "Call",
    start := some "2025-01-10T10:00:00Z", end_ := some "2025-01-10T09:00:00Z",
    description := none, location := none, attendees := none, status := none }

/-- A create body missing its title. -/
def ciMissing : CreateInput :=
  { idField := none, title := none,
    start := some "2025-01-10T09:00:00Z", end_ := some "2025-01-10T10:00:00Z",
    description := none, location := none, attendees := none, status := none }

/-- A patch body that only replaces the title. -/
def inputTitle : PatchInput :=
  { title := some "Updated", description := none, location := none,
    attendees := none, start := none, end_ := none, status := none }

/-- A patch body carrying an explicit `null` for `start`. -/
def inputNullStart : PatchInput :=
  { title := none, description := none, location := none,
    attendees := none, start := some JTime.jnull, end_ := none, status := none }

/-! ### Helper lemmas -/

lemma applyField_id (r : EventRow) (kv : String × ColVal) :
    (applyField r kv).id = r.id := by
  unfold applyField; split <;> rfl

lemma applyField_session_id (r : EventRow) (kv : String × ColVal) :
    (applyField r kv).session_id = r.session_id := by
  unfold applyField; split <;> rfl

lemma applyField_created_at (r : EventRow) (kv : String × ColVal) :
    (applyField r kv).created_at = r.created_at := by
  unfold applyField; split <;> rfl

lemma foldl_applyField_id (patch : List (String × ColVal)) (r : EventRow) :
    (patch.foldl applyField r).id = r.id := by
  induction patch generalizing r with
  | nil => rfl
  | cons kv t ih => rw [List.foldl_cons, ih, applyField_id]

lemma foldl_applyField_session_id (patch : List (String × ColVal)) (r : EventRow) :
    (patch.foldl applyField r).session_id = r.session_id := by
  induction patch generalizing r with
  | nil => rfl
  | cons kv t ih => rw [List.foldl_cons, ih, applyField_session_id]

lemma foldl_applyField_created_at (patch : List (String × ColVal)) (r : EventRow) :
    (patch.foldl applyField r).created_at = r.created_at := by
  induction patch generalizing r with
  | nil => rfl
  | cons kv t ih => rw [List.foldl_cons, ih, applyField_created_at]

lemma applyPatch_id (patch : List (String × ColVal)) (now : Int) (r : EventRow) :
    (applyPatch patch now r).id = r.id := foldl_applyField_id patch r

lemma applyPatch_session_id (patch : List (String × ColVal)) (now : Int) (r : EventRow) :
    (applyPatch patch now r).session_id = r.session_id := foldl_applyField_session_id patch r

lemma applyPatch_created_at (patch : List (String × ColVal)) (now : Int) (r : EventRow) :
    (applyPatch patch now r).created_at = r.created_at := foldl_applyField_created_at patch r

lemma applyPatch_updated_at (patch : List (String × ColVal)) (now : Int) (r : EventRow) :
    (applyPatch patch now r).updated_at = now := rfl

lemma rowMatches_applyPatch (sid eid : String) (patch : List (String × ColVal))
    (now : Int) (r : EventRow) :
    rowMatches sid eid (applyPatch patch now r) = rowMatches sid eid r := by
  simp [rowMatches, applyPatch_id, applyPatch_session_id]

lemma find?_map_ite {α : Type} (p : α → Bool) (f : α → α)
    (hf : ∀ a, p (f a) = p a) :
    ∀ l : List α,
      (l.map fun a => if p a then f a else a).find? p = (l.find? p).map f
  | [] => rfl
  | a :: t => by
    by_cases h : p a = true
    · simp [h, hf, List.find?_cons]
    · simp only [Bool.not_eq_true] at h
      simp [h, List.find?_cons, find?_map_ite p f hf t]

/-- The row returned by `updateEvent` is the patched form of the row
`getEvent` finds. -/
lemma updateEvent_fst (sid eid : String) (patch : List (String × ColVal))
    (now : Int) (store : Store) :
    (updateEvent sid eid patch now store).1 =
      (getEvent sid eid store).map (applyPatch patch now) := by
  unfold updateEvent getEvent
  exact find?_map_ite (rowMatches sid eid) (applyPatch patch now)
    (rowMatches_applyPatch sid eid patch now) store

/-- With unique primary keys, every row matching `(sid, eid)` is the row
`find?` located. -/
lemma match_eq_of_uniqueIds {store : Store} {sid eid : String} {old : EventRow}
    (hu : UniqueIds store)
    (hfind : store.find? (rowMatches sid eid) = some old) :
    ∀ r ∈ store, rowMatches sid eid r = true → r = old := by
  induction store with
  | nil => intro r hr; cases hr
  | cons a t ih =>
    rcases List.pairwise_cons.mp hu with ⟨ha, ht⟩
    by_cases h : rowMatches sid eid a = true
    · rw [List.find?_cons_of_pos _ h] at hfind
      injection hfind with hfind
      intro r hr hm
      rcases List.mem_cons.mp hr with rfl | hrt
      · exact hfind
      · exfalso
        apply ha r hrt
        have h1 : a.id = eid := by
          have := h; simp [rowMatches] at this; exact this.2
        have h2 : r.id = eid := by
          simp [rowMatches] at hm; exact hm.2
        rw [h1, h2]
    · rw [List.find?_cons_of_neg _ h] at hfind
      intro r hr hm
      rcases List.mem_cons.mp hr with rfl | hrt
      · exact absurd hm h
      · exact ih ht hfind r hrt hm

lemma rowMatches_session {sid eid : String} {r : EventRow}
    (h : rowMatches sid eid r = true) : r.session_id = sid := by
  simp [rowMatches] at h; exact h.1

lemma rowMatches_id {sid eid : String} {r : EventRow}
    (h : rowMatches sid eid r = true) : r.id = eid := by
  simp [rowMatches] at h; exact h.2

/-- Records of other sessions survive `updateEvent` exactly. -/
lemma updateEvent_other_sessions (sid eid : String) (patch : List (String × ColVal))
    (now : Int) (store : Store) :
    ((updateEvent sid eid patch now store).2.filter fun r => !(r.session_id == sid)) =
      store.filter fun r => !(r.session_id == sid) := by
  unfold updateEvent
  induction store with
  | nil => rfl
  | cons a t ih =>
    by_cases h : rowMatches sid eid a = true
    · have hsa : a.session_id = sid := rowMatches_session h
      have hsa2 : (applyPatch patch now a).session_id = sid := by
        rw [applyPatch_session_id]; exact hsa
      simp only [List.map_cons, if_pos h, List.filter_cons, hsa, hsa2]
      simpa using ih
    · simp only [Bool.not_eq_true] at h
      simp only [List.map_cons, h, Bool.false_eq_true, if_false, List.filter_cons]
      by_cases hs : (a.session_id == sid) = true
      · simpa [hs] using ih
      · simp only [Bool.not_eq_true] at hs
        simp only [hs, Bool.not_false]
        rw [← ih]

/-- Records of other sessions survive `deleteEvent` exactly. -/
lemma deleteEvent_other_sessions (sid eid : String) (store : Store) :
    ((deleteEvent sid eid store).2.filter fun r => !(r.session_id == sid)) =
      store.filter fun r => !(r.session_id == sid) := by
  unfold deleteEvent
  simp only [List.filter_filter]
  apply List.filter_congr
  intro r _
  by_cases hs : (r.session_id == sid) = true
  · simp [hs]
  · simp only [Bool.not_eq_true] at hs
    simp [hs, rowMatches]

/-- Applying the handler-built patch to the fetched row produces exactly the
merged row. -/
lemma applyPatch_buildPatch (parseStr : String → Option Int) (input : PatchInput)
    (old : EventRow) (ns ne now : Int)
    (hs : effStart parseStr old input = some ns)
    (he : effEnd parseStr old input = some ne) :
    applyPatch (buildPatch input ns ne) now old = mergedRow input old ns ne now := by
  obtain ⟨t, d, lo, a, s, e, st⟩ := input
  have hns : s = none → old.start = ns := by
    intro h; subst h; simpa [effStart] using hs
  have hne : e = none → old.end_ = ne := by
    intro h; subst h; simpa [effEnd] using he
  clear hs he
  cases t <;> cases d <;> cases lo <;> cases a <;> cases s <;> cases e <;> cases st <;>
    simp_all [applyPatch, buildPatch, applyField, mergedRow]

lemma postHandler_success (parseStr : String → Option Int) (sid : String)
    (input : CreateInput) (genId : String) (now : Int) (store : Store) {s e : Int}
    (h1 : jsTruthy input.title = true) (h2 : jsTruthy input.start = true)
    (h3 : jsTruthy input.end_ = true)
    (hps : parseStr (input.start.getD "") = some s)
    (hpe : parseStr (input.end_.getD "") = some e)
    (hlt : s < e) :
    postHandler parseStr sid input genId now store =
      (HResp.ok 201 (createdEvent sid input genId now s e),
       store ++ [createdEvent sid input genId now s e]) := by
  have hnle : ¬ e ≤ s := not_le.mpr hlt
  simp [postHandler, h1, h2, h3, hps, hpe, hnle, createdEvent]

lemma postHandler_ok_inv {parseStr : String → Option Int} {sid : String}
    {input : CreateInput} {genId : String} {now : Int} {store : Store}
    {ev : EventRow} {st2 : Store}
    (h : postHandler parseStr sid input genId now store = (HResp.ok 201 ev, st2)) :
    jsTruthy input.title = true ∧ jsTruthy input.start = true ∧
    jsTruthy input.end_ = true ∧
    ∃ s e, parseStr (input.start.getD "") = some s ∧
      parseStr (input.end_.getD "") = some e ∧ s < e ∧
      ev = createdEvent sid input genId now s e ∧ st2 = store ++ [ev] := by
  unfold postHandler at h
  split at h
  · exact absurd h (by simp)
  · next hcond =>
    simp only [Bool.not_eq_true', Bool.not_eq_false, Bool.and_eq_true] at hcond
    refine ⟨hcond.1.1, hcond.1.2, hcond.2, ?_⟩
    split at h
    · exact absurd h (by simp)
    · next s hps =>
      split at h
      · exact absurd h (by simp)
      · next e hpe =>
        split at h
        · exact absurd h (by simp)
        · next hle =>
          rw [Prod.mk.injEq] at h
          obtain ⟨hev, hst⟩ := h
          injection hev with _ hev
          exact ⟨s, e, hps, hpe, not_le.mp hle, hev.symm,
            by rw [hst.symm, hev]⟩

lemma patchHandler_success (parseStr : String → Option Int) (sid eid : String)
    (input : PatchInput) (now : Int) (store : Store) {old : EventRow} {ns ne : Int}
    (hget : getEvent sid eid store = some old)
    (hs : effStart parseStr old input = some ns)
    (he : effEnd parseStr old input = some ne)
    (hlt : ns < ne) :
    patchHandler parseStr sid eid input now store =
      (HResp.ok 200 (mergedRow input old ns ne now),
       (updateEvent sid eid (buildPatch input ns ne) now store).2) := by
  have hnle : ¬ ne ≤ ns := not_le.mpr hlt
  have hfst : (updateEvent sid eid (buildPatch input ns ne) now store).1 =
      some (mergedRow input old ns ne now) := by
    rw [updateEvent_fst, hget]
    simp [applyPatch_buildPatch parseStr input old ns ne now hs he]
  simp [patchHandler, hget, hs, he, hnle, hfst]

lemma applyPatch_nil (now : Int) (r : EventRow) :
    applyPatch [] now r = { r with updated_at := now } := rfl

lemma patchHandler_ok_inv {parseStr : String → Option Int} {sid eid : String}
    {input : PatchInput} {now : Int} {store : Store} {ev : EventRow} {st2 : Store}
    (h : patchHandler parseStr sid eid input now store = (HResp.ok 200 ev, st2)) :
    ∃ old ns ne, getEvent sid eid store = some old ∧
      effStart parseStr old input = some ns ∧
      effEnd parseStr old input = some ne ∧ ns < ne ∧
      ev = mergedRow input old ns ne now ∧
      st2 = (updateEvent sid eid (buildPatch input ns ne) now store).2 := by
  unfold patchHandler at h
  split at h
  · exact absurd h (by simp)
  · next old hget =>
    split at h
    · exact absurd h (by simp)
    · next ns hs =>
      split at h
      · exact absurd h (by simp)
      · next ne he =>
        split at h
        · exact absurd h (by simp)
        · next hle =>
          refine ⟨old, ns, ne, hget, hs, he, not_le.mp hle, ?_⟩
          have hfst : (updateEvent sid eid (buildPatch input ns ne) now store).1 =
              some (applyPatch (buildPatch input ns ne) now old) := by
            rw [updateEvent_fst, hget]; rfl
          simp only [hfst] at h
          rw [Prod.mk.injEq] at h
          obtain ⟨hev, hst⟩ := h
          injection hev with _ hev
          rw [← hev, applyPatch_buildPatch parseStr input old ns ne now hs he]
          exact ⟨rfl, hst.symm⟩

/-! ### Claim theorems -/

/-- C1. Partition isolation: `getEvent`, `updateEvent` and `deleteEvent`
filter on both `session_id` and `id`, so a record stored under a different
session is never returned, modified or removed, and when no row matches the
pair the three operations report not-found / `false` and leave the store
unchanged. -/
theorem partition_isolation (s1 i : String) (patch : List (String × ColVal))
    (now : Int) (store : Store) :
    (∀ r, getEvent s1 i store = some r → r.session_id = s1 ∧ r.id = i) ∧
    (∀ r, (updateEvent s1 i patch now store).1 = some r →
      r.session_id = s1 ∧ r.id = i) ∧
    ((updateEvent s1 i patch now store).2.filter (fun r => !(r.session_id == s1)) =
      store.filter fun r => !(r.session_id == s1)) ∧
    ((deleteEvent s1 i store).2.filter (fun r => !(r.session_id == s1)) =
      store.filter fun r => !(r.session_id == s1)) ∧
    ((∀ r ∈ store, ¬(r.session_id = s1 ∧ r.id = i)) →
      getEvent s1 i store = none ∧
      updateEvent s1 i patch now store = (none, store) ∧
      deleteEvent s1 i store = (false, store)) := by
  have hfalse : (∀ r ∈ store, ¬(r.session_id = s1 ∧ r.id = i)) →
      ∀ r ∈ store, ¬(rowMatches s1 i r = true) := by
    intro hn r hr hm
    exact hn r hr ⟨rowMatches_session hm, rowMatches_id hm⟩
  refine ⟨?_, ?_, updateEvent_other_sessions s1 i patch now store,
    deleteEvent_other_sessions s1 i store, ?_⟩
  · intro r h
    have := List.find?_some h
    exact ⟨rowMatches_session this, rowMatches_id this⟩
  · intro r h
    have := List.find?_some h
    exact ⟨rowMatches_session this, rowMatches_id this⟩
  · intro hn
    have hnb := hfalse hn
    have hmap : (store.map fun r =>
        if rowMatches s1 i r then applyPatch patch now r else r) = store := by
      have : ∀ r ∈ store,
          (if rowMatches s1 i r then applyPatch patch now r else r) = r := by
        intro r hr
        rw [if_neg fun hc => hnb r hr hc]
      calc (store.map fun r =>
            if rowMatches s1 i r then applyPatch patch now r else r)
          = store.map id := List.map_congr_left this
        _ = store := List.map_id store
    refine ⟨List.find?_eq_none.mpr hnb, ?_, ?_⟩
    · simp only [updateEvent]
      rw [hmap, List.find?_eq_none.mpr hnb]
    · unfold deleteEvent
      rw [Prod.mk.injEq]
      constructor
      · rw [List.any_eq_false]
        exact fun r hr => hnb r hr
      · rw [List.filter_eq_self]
        intro r hr
        rw [Bool.not_eq_eq_eq_not, Bool.not_true]
        exact Bool.not_eq_true _ ▸ fun hc => hnb r hr hc

/-- C1 witness: with a single stored row under session T, session S probing
the colliding id finds nothing, updates nothing and deletes nothing. -/
theorem partition_isolation_witness :
    getEvent "S" "a1" [rowT] = none ∧
    updateEvent "S" "a1" [] 5 [rowT] = (none, [rowT]) ∧
    deleteEvent "S" "a1" [rowT] = (false, [rowT]) :=
  (partition_isolation "S" "a1" [] 5 [rowT]).2.2.2.2 (by decide)

lemma overlapPred_iff (rs re : Option Int) (r : EventRow) :
    overlapPred rs re r = true ↔
      (∀ a, rs = some a → a ≤ r.end_) ∧ (∀ b, re = some b → r.start ≤ b) := by
  cases rs <;> cases re <;> simp [overlapPred]

/-- C3. Range filter correctness of `listEvents`: with both bounds absent it
returns exactly the records of the session; with bounds present a record is
returned iff it belongs to the session and overlaps (`end >= range_start`,
`start <= range_end`); the result is ordered by `start` ascending; and the
two-event example of the spec behaves as stated. -/
theorem listEvents_range_filter (sid : String) (rs re : Option Int)
    (store : Store) (r : EventRow) :
    (r ∈ listEvents sid none none store ↔ r ∈ store ∧ r.session_id = sid) ∧
    (r ∈ listEvents sid rs re store ↔
      r ∈ store ∧ r.session_id = sid ∧
        (∀ a, rs = some a → a ≤ r.end_) ∧ (∀ b, re = some b → r.start ≤ b)) ∧
    (listEvents sid rs re store).Sorted startLE ∧
    listEvents "S" (some 570) (some 585) [rowA, rowB] = [rowA] ∧
    listEvents "S" (some 630) (some 645) [rowA, rowB] = [] := by
  have hmem : ∀ (rs re : Option Int),
      r ∈ listEvents sid rs re store ↔
        r ∈ store ∧ r.session_id = sid ∧
          (∀ a, rs = some a → a ≤ r.end_) ∧ (∀ b, re = some b → r.start ≤ b) := by
    intro rs re
    rw [listEvents, List.mem_insertionSort, List.mem_filter, Bool.and_eq_true,
      beq_iff_eq, overlapPred_iff]
  refine ⟨?_, hmem rs re, List.sorted_insertionSort startLE _, by decide, by decide⟩
  rw [hmem none none]
  simp

/-- C3 witness: event A is a member of the result of the first example query. -/
theorem listEvents_range_filter_witness :
    rowA ∈ listEvents "S" (some 570) (some 585) [rowA, rowB] :=
  ((listEvents_range_filter "S" (some 570) (some 585) [rowA, rowB] rowA).2.1).mpr
    (by refine ⟨by decide, by decide, ?_, ?_⟩ <;> intro x hx <;>
      injection hx with hx <;> subst hx <;> decide)

/-- C5. SQL key allow-list: every column name interpolated into the dynamic
UPDATE statement for a patch built by the PATCH handler belongs to the fixed
server-defined set of seven field names; no client-supplied key name reaches
the SQL text. -/
theorem update_sql_keys_allowlisted (input : PatchInput) (ns ne : Int) :
    ∀ k ∈ updateSqlKeys (buildPatch input ns ne), k ∈ allowedPatchKeys := by
  intro k hk
  obtain ⟨t, d, lo, a, s, e, st⟩ := input
  simp only [buildPatch, updateSqlKeys, List.map_append, List.mem_append] at hk
  rcases hk with ((((((h | h) | h) | h) | h) | h) | h)
  · cases t <;> simp at h <;> simp [h, allowedPatchKeys]
  · cases d <;> simp at h <;> simp [h, allowedPatchKeys]
  · cases lo <;> simp at h <;> simp [h, allowedPatchKeys]
  · cases a <;> simp at h <;> simp [h, allowedPatchKeys]
  · cases s <;> simp at h <;> simp [h, allowedPatchKeys]
  · cases e <;> simp at h <;> simp [h, allowedPatchKeys]
  · cases st <;> simp at h <;> simp [h, allowedPatchKeys]

/-- C5 witness: the key list of a one-field patch is inside the allow-list. -/
theorem update_sql_keys_allowlisted_witness :
    "title" ∈ allowedPatchKeys :=
  update_sql_keys_allowlisted
    { title := some "Updated", description := none, location := none,
      attendees := none, start := none, end_ := none, status := none } 0 1
    "title" (by decide)

/-- C2. An effective post-merge `end <= start` makes create and patch fail
with the InvalidArgument 400 error and leave the store untouched, and after
any successful create or update every stored record satisfies
`end > start` (given the primary-key invariant for updates). -/
theorem invalid_times_reject_without_mutation :
    (∀ (parseStr : String → Option Int) (sid : String) (input : CreateInput)
        (genId : String) (now : Int) (store : Store) (s e : Int),
      jsTruthy input.title = true → jsTruthy input.start = true →
      jsTruthy input.end_ = true →
      parseStr (input.start.getD "") = some s →
      parseStr (input.end_.getD "") = some e → e ≤ s →
      postHandler parseStr sid input genId now store =
        (HResp.err 400 "\x27end\x27 must be after \x27start\x27.", store)) ∧
    (∀ (parseStr : String → Option Int) (sid eid : String) (input : PatchInput)
        (now : Int) (store : Store) (old : EventRow) (ns ne : Int),
      getEvent sid eid store = some old →
      effStart parseStr old input = some ns →
      effEnd parseStr old input = some ne → ne ≤ ns →
      patchHandler parseStr sid eid input now store =
        (HResp.err 400 "\x27end\x27 must be after \x27start\x27.", store)) ∧
    (∀ (parseStr : String → Option Int) (sid : String) (input : CreateInput)
        (genId : String) (now : Int) (store : Store) (ev : EventRow) (st2 : Store),
      (∀ r ∈ store, r.start < r.end_) →
      postHandler parseStr sid input genId now store = (HResp.ok 201 ev, st2) →
      ∀ r ∈ st2, r.start < r.end_) ∧
    (∀ (parseStr : String → Option Int) (sid eid : String) (input : PatchInput)
        (now : Int) (store : Store) (ev : EventRow) (st2 : Store),
      UniqueIds store → (∀ r ∈ store, r.start < r.end_) →
      patchHandler parseStr sid eid input now store = (HResp.ok 200 ev, st2) →
      ∀ r ∈ st2, r.start < r.end_) := by
  refine ⟨?_, ?_, ?_, ?_⟩
  · intro parseStr sid input genId now store s e h1 h2 h3 hps hpe hle
    simp [postHandler, h1, h2, h3, hps, hpe, hle]
  · intro parseStr sid eid input now store old ns ne hget hs he hle
    simp [patchHandler, hget, hs, he, hle]
  · intro parseStr sid input genId now store ev st2 hinv hok r hr
    obtain ⟨h1, h2, h3, s, e, hps, hpe, hlt, hev, hst⟩ := postHandler_ok_inv hok
    subst hst
    rcases List.mem_append.mp hr with hr | hr
    · exact hinv r hr
    · rcases List.mem_singleton.mp hr with rfl
      rw [hev]
      simpa [createdEvent] using hlt
  · intro parseStr sid eid input now store ev st2 hu hinv hok r hr
    obtain ⟨old, ns, ne, hget, hs, he, hlt, hev, hst⟩ := patchHandler_ok_inv hok
    subst hst
    simp only [updateEvent, List.mem_map] at hr
    obtain ⟨x, hx, hgx⟩ := hr
    by_cases hm : rowMatches sid eid x = true
    · have hxo : x = old := match_eq_of_uniqueIds hu hget x hx hm
    -- the single matching row becomes the merged row, whose times were checked
      rw [if_pos hm, hxo,
        applyPatch_buildPatch parseStr input old ns ne now hs he] at hgx
      rw [← hgx]
      simpa [mergedRow] using hlt
    · rw [if_neg hm] at hgx
      rw [← hgx]
      exact hinv x hx

/-- C2 witness: a create whose parsed end precedes its start returns the
400 ordering error and inserts nothing. -/
theorem invalid_times_reject_without_mutation_witness :
    postHandler sampleParse "S" ciBad "uuid-1" 100 [rowB] =
      (HResp.err 400 "\x27end\x27 must be after \x27start\x27.", [rowB]) :=
  invalid_times_reject_without_mutation.1 sampleParse "S" ciBad "uuid-1" 100
    [rowB] 600 540 (by decide) (by decide) (by decide) (by decide) (by decide)
    (by decide)

/-- C4. Partial-update merge semantics: with an existing row and effective
post-merge times `ns`/`ne`, the PATCH handler rejects with a 400 exactly
when `ne ≤ ns` (even when only one bound was supplied), and on success the
stored event takes every present body key (explicit null included for
description/location), keeps the stored value of every absent key, and carries
the effective `start`/`end` pair. -/
theorem patch_merge_semantics (parseStr : String → Option Int) (sid eid : String)
    (input : PatchInput) (now : Int) (store : Store) (old : EventRow) (ns ne : Int)
    (hget : getEvent sid eid store = some old)
    (hs : effStart parseStr old input = some ns)
    (he : effEnd parseStr old input = some ne) :
    (ne ≤ ns → patchHandler parseStr sid eid input now store =
      (HResp.err 400 "\x27end\x27 must be after \x27start\x27.", store)) ∧
    (ns < ne → ∃ ev st2,
      patchHandler parseStr sid eid input now store = (HResp.ok 200 ev, st2) ∧
      ev.title = input.title.getD old.title ∧
      ev.description = input.description.getD old.description ∧
      ev.location = input.location.getD old.location ∧
      (input.attendees = none → ev.attendees = old.attendees) ∧
      (∀ a, input.attendees = some a → ev.attendees = mergeAtt a) ∧
      ev.start = ns ∧ ev.end_ = ne ∧
      ev.status = input.status.getD old.status ∧
      ev.id = old.id ∧ ev.session_id = old.session_id ∧
      ev.created_at = old.created_at ∧ ev.updated_at = now) := by
  constructor
  · intro hle
    simp [patchHandler, hget, hs, he, hle]
  · intro hlt
    refine ⟨mergedRow input old ns ne now,
      (updateEvent sid eid (buildPatch input ns ne) now store).2,
      patchHandler_success parseStr sid eid input now store hget hs he hlt,
      rfl, rfl, rfl, ?_, ?_, rfl, rfl, rfl, rfl, rfl, rfl, rfl⟩
    · intro h; simp [mergedRow, h]
    · intro a h; simp [mergedRow, h]

/-- C4 witness: patching only the title of a stored event keeps every other
field and refreshes `updated_at`. -/
theorem patch_merge_semantics_witness :
    ∃ ev st2,
      patchHandler sampleParse "S" "a1" inputTitle 50 [rowA, rowB] =
        (HResp.ok 200 ev, st2) ∧
      ev.title = "Updated" ∧ ev.description = none ∧ ev.location = none ∧
      (inputTitle.attendees = none → ev.attendees = rowA.attendees) ∧
      (∀ a, inputTitle.attendees = some a → ev.attendees = mergeAtt a) ∧
      ev.start = 540 ∧ ev.end_ = 600 ∧ ev.status = "confirmed" ∧
      ev.id = "a1" ∧ ev.session_id = "S" ∧ ev.created_at = 0 ∧
      ev.updated_at = 50 :=
  (patch_merge_semantics sampleParse "S" "a1" inputTitle 50 [rowA, rowB] rowA
    540 600 (by decide) (by decide) (by decide)).2 (by decide)

/-- C6. Create requires title, start and end: a falsy (absent or empty)
required field yields the 400 missing-field error for every parser and
leaves the store untouched, and a 201 success happens exactly when all
three are present and non-empty, both timestamps parse, and end > start. -/
theorem create_requires_fields (parseStr : String → Option Int) (sid : String)
    (input : CreateInput) (genId : String) (now : Int) (store : Store) :
    ((jsTruthy input.title && jsTruthy input.start && jsTruthy input.end_) = false →
      postHandler parseStr sid input genId now store =
        (HResp.err 400 "Missing required fields: title, start, end", store)) ∧
    ((∃ ev st2, postHandler parseStr sid input genId now store =
        (HResp.ok 201 ev, st2)) ↔
      (jsTruthy input.title = true ∧ jsTruthy input.start = true ∧
       jsTruthy input.end_ = true ∧
       ∃ s e, parseStr (input.start.getD "") = some s ∧
         parseStr (input.end_.getD "") = some e ∧ s < e)) := by
  constructor
  · intro h
    simp [postHandler, h]
  · constructor
    · rintro ⟨ev, st2, hok⟩
      obtain ⟨h1, h2, h3, s, e, hps, hpe, hlt, _, _⟩ := postHandler_ok_inv hok
      exact ⟨h1, h2, h3, s, e, hps, hpe, hlt⟩
    · rintro ⟨h1, h2, h3, s, e, hps, hpe, hlt⟩
      exact ⟨createdEvent sid input genId now s e,
        store ++ [createdEvent sid input genId now s e],
        postHandler_success parseStr sid input genId now store h1 h2 h3 hps hpe hlt⟩

/-- C6 witness: a create body with no title is rejected with the
missing-field error and the store is unchanged. -/
theorem create_requires_fields_witness :
    postHandler sampleParse "S" ciMissing "uuid-1" 100 [rowA] =
      (HResp.err 400 "Missing required fields: title, start, end", [rowA]) :=
  (create_requires_fields sampleParse "S" ciMissing "uuid-1" 100 [rowA]).1
    (by decide)

/-- C7. A successful create returns an event whose id is exactly the
server-generated value — never the id the client sent, non-empty and fresh
whenever the generated value is — and whose `created_at` and `updated_at`
are equal. -/
theorem create_generates_id (parseStr : String → Option Int) (sid : String)
    (input : CreateInput) (genId : String) (now : Int) (store : Store)
    (ev : EventRow) (st2 : Store)
    (hok : postHandler parseStr sid input genId now store = (HResp.ok 201 ev, st2)) :
    ev.id = genId ∧ ev.created_at = now ∧ ev.updated_at = now ∧
    ev.created_at = ev.updated_at ∧
    (genId ≠ "" → ev.id ≠ "") ∧
    (∀ issued : List String, genId ∉ issued → ev.id ∉ issued) ∧
    (∀ bodyId, input.idField = some bodyId → bodyId ≠ genId → ev.id ≠ bodyId) := by
  obtain ⟨_, _, _, s, e, _, _, _, hev, _⟩ := postHandler_ok_inv hok
  subst hev
  refine ⟨rfl, rfl, rfl, rfl, fun h => h, fun issued h => h, ?_⟩
  intro bodyId _ hne
  exact fun hc => hne (hc.symm)

/-- C7 witness: a concrete create returns the generated id, not the
client-sent one, with equal creation and update stamps. -/
theorem create_generates_id_witness :
    (createdEvent "S" ciGood "uuid-1" 100 540 600).id = "uuid-1" ∧
    (createdEvent "S" ciGood "uuid-1" 100 540 600).created_at =
      (createdEvent "S" ciGood "uuid-1" 100 540 600).updated_at ∧
    (createdEvent "S" ciGood "uuid-1" 100 540 600).id ≠ "client-chosen-id" :=
  have h := create_generates_id sampleParse "S" ciGood "uuid-1" 100 []
    (createdEvent "S" ciGood "uuid-1" 100 540 600)
    [createdEvent "S" ciGood "uuid-1" 100 540 600] (by decide)
  ⟨h.1, h.2.2.2.1, h.2.2.2.2.2.2 "client-chosen-id" rfl (by decide)⟩

/-- C8. Every successful update stores and returns a row whose `updated_at`
equals the current time of the operation, strictly greater than the previously
stored value whenever the clock has advanced past it, for every patch —
including one that changes no other field. -/
theorem update_refreshes_updated_at (sid eid : String)
    (patch : List (String × ColVal)) (now : Int) (store : Store) (old : EventRow)
    (hget : getEvent sid eid store = some old)
    (hnow : old.updated_at < now) :
    ∃ r, (updateEvent sid eid patch now store).1 = some r ∧
      r ∈ (updateEvent sid eid patch now store).2 ∧
      r.updated_at = now ∧ old.updated_at < r.updated_at ∧
      r.created_at = old.created_at ∧ r.id = old.id ∧
      r.session_id = old.session_id := by
  have hfst : (updateEvent sid eid patch now store).1 =
      some (applyPatch patch now old) := by
    rw [updateEvent_fst, hget]; rfl
  refine ⟨applyPatch patch now old, hfst, ?_, rfl, hnow,
    applyPatch_created_at patch now old, applyPatch_id patch now old,
    applyPatch_session_id patch now old⟩
  exact List.mem_of_find?_eq_some hfst

/-- C8 witness: an update touching only the title refreshes `updated_at`
from 0 to 7. -/
theorem update_refreshes_updated_at_witness :
    ∃ r, (updateEvent "S" "a1" [("title", ColVal.vs "X")] 7 [rowA]).1 = some r ∧
      r ∈ (updateEvent "S" "a1" [("title", ColVal.vs "X")] 7 [rowA]).2 ∧
      r.updated_at = 7 ∧ rowA.updated_at < r.updated_at ∧
      r.created_at = rowA.created_at ∧ r.id = rowA.id ∧
      r.session_id = rowA.session_id :=
  update_refreshes_updated_at "S" "a1" [("title", ColVal.vs "X")] 7 [rowA] rowA
    (by decide) (by decide)

/-- C9. An empty request body reads as the empty object, never as the
`Invalid JSON body` error (which only a non-empty unparseable body
produces), so a PATCH with an empty body on an existing event succeeds with
200 and refreshes only `updated_at`. -/
theorem empty_body_reads_empty_object :
    (∀ {α : Type} (parse : String → Option α) (empty : α),
      readJson parse empty "" = Except.ok empty) ∧
    (∀ {α : Type} (parse : String → Option α) (empty : α) (body : String),
      body ≠ "" → parse body = none →
      readJson parse empty body = Except.error "Invalid JSON body") ∧
    (∀ {α : Type} (parse : String → Option α) (empty : α) (body msg : String),
      readJson parse empty body = Except.error msg →
      body ≠ "" ∧ msg = "Invalid JSON body") ∧
    (∀ (parseStr : String → Option Int) (sid eid : String) (now : Int)
        (store : Store) (old : EventRow),
      getEvent sid eid store = some old → old.start < old.end_ →
      patchHandler parseStr sid eid emptyPatch now store =
        (HResp.ok 200 { old with updated_at := now },
         store.map fun r =>
           if rowMatches sid eid r then { r with updated_at := now } else r)) := by
  refine ⟨?_, ?_, ?_, ?_⟩
  · intro α parse empty
    simp [readJson]
  · intro α parse empty body hb hp
    simp [readJson, hb, hp]
  · intro α parse empty body msg h
    unfold readJson at h
    split at h
    · exact absurd h (by simp)
    · next hb =>
      split at h
      · exact absurd h (by simp)
      · injection h with h
        exact ⟨hb, h.symm⟩
  · intro parseStr sid eid now store old hget hlt
    rw [patchHandler_success parseStr sid eid emptyPatch now store hget rfl rfl hlt]
    rfl

/-- C9 witness: the empty body reads as the empty patch, and an empty-body
PATCH on a stored event returns 200 with only `updated_at` refreshed. -/
theorem empty_body_reads_empty_object_witness :
    readJson (fun _ => (none : Option PatchInput)) emptyPatch "" =
      Except.ok emptyPatch ∧
    patchHandler sampleParse "S" "a1" emptyPatch 9 [rowA] =
      (HResp.ok 200 { rowA with updated_at := 9 },
       [{ rowA with updated_at := 9 }]) :=
  ⟨empty_body_reads_empty_object.1 (fun _ => none) emptyPatch,
   by
    have h := empty_body_reads_empty_object.2.2.2 sampleParse "S" "a1" 9 [rowA]
      rowA (by decide) (by decide)
    simpa [rowMatches, rowA] using h⟩

/-- C10. A PATCH body carrying an explicit `null` for `start` is not
rejected by the timestamp validator: `new Date(null)` yields the Unix
epoch, so the update succeeds with `start` silently set to epoch whenever
the post-merge `end > start` check passes. -/
theorem null_start_becomes_epoch :
    (∀ parseStr, toDate parseStr JTime.jnull = some 0) ∧
    (∀ (parseStr : String → Option Int) (sid eid : String) (input : PatchInput)
        (now : Int) (store : Store) (old : EventRow) (ne : Int),
      getEvent sid eid store = some old → input.start = some JTime.jnull →
      effEnd parseStr old input = some ne → 0 < ne →
      ∃ ev st2, patchHandler parseStr sid eid input now store =
        (HResp.ok 200 ev, st2) ∧ ev.start = 0 ∧ ev.end_ = ne) := by
  refine ⟨fun _ => rfl, ?_⟩
  intro parseStr sid eid input now store old ne hget hstart he hlt
  have hs : effStart parseStr old input = some 0 := by
    simp [effStart, hstart, toDate]
  exact ⟨mergedRow input old 0 ne now,
    (updateEvent sid eid (buildPatch input 0 ne) now store).2,
    patchHandler_success parseStr sid eid input now store hget hs he hlt,
    rfl, rfl⟩

/-- C10 witness: patching a stored 09:00-10:00 event with `start: null`
succeeds and stores the epoch as the new start. -/
theorem null_start_becomes_epoch_witness :
    ∃ ev st2, patchHandler sampleParse "S" "a1" inputNullStart 9 [rowA] =
      (HResp.ok 200 ev, st2) ∧ ev.start = 0 ∧ ev.end_ = 600 :=
  null_start_becomes_epoch.2 sampleParse "S" "a1" inputNullStart 9 [rowA] rowA
    600 (by decide) rfl (by decide) (by decide)

end CalendarTool
